import Mathlib

attribute [local semireducible] Rat.add Rat.mul Rat.sub Rat.inv

/-!
Verification of the sales-metrics analytics core
(`src/my_agent/tools/calculate_metrics.py`).

The embedding is shallow: the SQLite store is a list of sales records, the
SQL aggregations of `_get_sales_by_period`, `_get_years_with_data` and the
category query become explicit folds over that list, Python dicts become
finite key sets with a lookup function, Python `round(x, 2)` becomes exact
rational rounding with the banker's tie-break, and Python truthiness tests
on optional integers / dicts are modelled by explicit emptiness / zero
tests.  Monetary amounts are rationals.
-/

namespace SalesMetrics

/-- A row of the `sales` table: `(year, month, category, amount)`.
`month` is a natural number; the schema's invariant `month ∈ [1,12]` is
stated separately as `ValidDB` where a claim needs it. -/
structure SalesRecord where
  year : Int
  month : Nat
  category : String
  amount : ℚ
deriving DecidableEq, Repr

/-- The data-model invariant on the store: months lie in 1..12. -/
def ValidDB (db : List SalesRecord) : Prop :=
  ∀ r ∈ db, 1 ≤ r.month ∧ r.month ≤ 12

instance (db : List SalesRecord) : Decidable (ValidDB db) := by
  unfold ValidDB; infer_instance

/-- The period key a record contributes to: the month itself for monthly
granularity, `(month - 1) / 3 + 1` (integer division, as in the SQL) for
quarterly. -/
def recordPeriod (gran : String) (r : SalesRecord) : Int :=
  if gran = "quarterly" then ((r.month - 1) / 3 + 1 : Nat) else (r.month : Int)

/-- Key set of the aggregation map of `_get_sales_by_period year gran`:
the distinct period keys of records of `year` (dict keys, first-occurrence
order). -/
def aggKeys (db : List SalesRecord) (y : Int) (gran : String) : List Int :=
  ((db.filter (fun r => r.year = y)).map (recordPeriod gran)).dedup

/-- Value of the aggregation map at key `p`: the sum of `amount` over the
records of `year` in period `p` (0 if there are none; the dict of
`_get_sales_by_period` stores this sum for every present key). -/
def aggVal (db : List SalesRecord) (y : Int) (gran : String) (p : Int) : ℚ :=
  ((db.filter (fun r => r.year = y ∧ recordPeriod gran r = p)).map
    (fun r => r.amount)).sum

/-- `dict.get(p, 0)` on the aggregation map. -/
def aggGet (db : List SalesRecord) (y : Int) (gran : String) (p : Int) : ℚ :=
  if p ∈ aggKeys db y gran then aggVal db y gran p else 0

/-- `dict.get(p)` on the aggregation map (no default). -/
def aggGetOpt (db : List SalesRecord) (y : Int) (gran : String) (p : Int) :
    Option ℚ :=
  if p ∈ aggKeys db y gran then some (aggVal db y gran p) else none

/-- `sum(d.values())` on the aggregation map. -/
def aggTotal (db : List SalesRecord) (y : Int) (gran : String) : ℚ :=
  ((aggKeys db y gran).map (aggVal db y gran)).sum

/-- `_get_years_with_data`: the distinct years present in the store. -/
def yearsWithData (db : List SalesRecord) : List Int :=
  (db.map (fun r => r.year)).dedup

/-- `sorted(set(l))`: ascending sort of the distinct elements. -/
def sortedKeys (l : List Int) : List Int :=
  List.insertionSort (· ≤ ·) l.dedup

/-! ### Python `round(x, 2)` on exact rationals -/

/-- Round a rational to the nearest integer, ties to even
(Python's `round`). -/
def rnd (x : ℚ) : Int :=
  if x - ⌊x⌋ < 1/2 then ⌊x⌋
  else if 1/2 < x - ⌊x⌋ then ⌊x⌋ + 1
  else if ⌊x⌋ % 2 = 0 then ⌊x⌋ else ⌊x⌋ + 1

/-- Python `round(x, 2)`. -/
def round2 (x : ℚ) : ℚ := (rnd (x * 100) : ℚ) / 100

theorem rnd_le (x : ℚ) : |(rnd x : ℚ) - x| ≤ 1/2 := by
  have hf : (⌊x⌋ : ℚ) ≤ x := Int.floor_le x
  have hf' : x < (⌊x⌋ : ℚ) + 1 := Int.lt_floor_add_one x
  unfold rnd
  split
  · rw [abs_sub_comm, abs_of_nonneg (by linarith)]
    linarith
  · split
    · rw [abs_of_nonneg (by push_cast; linarith)]
      push_cast
      linarith
    · have hr : x - (⌊x⌋ : ℚ) = 1/2 := by
        rename_i h1 h2
        linarith [le_of_not_lt h1, le_of_not_lt h2]
      split
      · rw [abs_sub_comm, abs_of_nonneg (by linarith)]
        linarith
      · rw [abs_of_nonneg (by push_cast; linarith)]
        push_cast
        linarith

theorem round2_close (x : ℚ) : |round2 x - x| ≤ 1/200 := by
  have h := rnd_le (x * 100)
  unfold round2
  have : (rnd (x * 100) : ℚ) / 100 - x = ((rnd (x * 100) : ℚ) - x * 100) / 100 := by
    ring
  rw [this, abs_div, abs_of_pos (by norm_num : (0:ℚ) < 100)]
  linarith [abs_nonneg ((rnd (x * 100) : ℚ) - x * 100)]

theorem rnd_mono {x y : ℚ} (h : x ≤ y) : rnd x ≤ rnd y := by
  have hfle : ⌊x⌋ ≤ ⌊y⌋ := Int.floor_le_floor h
  rcases lt_or_eq_of_le hfle with hlt | heq
  · -- ⌊x⌋ < ⌊y⌋ : rnd x ≤ ⌊x⌋ + 1 ≤ ⌊y⌋ ≤ rnd y
    have h1 : rnd x ≤ ⌊x⌋ + 1 := by
      unfold rnd
      repeat' split
      all_goals omega
    have h2 : ⌊y⌋ ≤ rnd y := by
      unfold rnd
      repeat' split
      all_goals omega
    omega
  · -- same floor: compare fractional parts
    have hxy : x - (⌊x⌋ : ℚ) ≤ y - (⌊y⌋ : ℚ) := by
      rw [← heq]; linarith
    unfold rnd
    rw [← heq] at hxy ⊢
    repeat' split
    all_goals first
      | omega
      | (exfalso
         rename_i h1 h2
         first
           | linarith [le_of_not_lt h1, le_of_not_lt h2]
           | linarith)

theorem round2_mono {x y : ℚ} (h : x ≤ y) : round2 x ≤ round2 y := by
  unfold round2
  have := rnd_mono (mul_le_mul_of_nonneg_right h (by norm_num : (0:ℚ) ≤ 100))
  have hcast : ((rnd (x * 100) : ℚ)) ≤ ((rnd (y * 100) : ℚ)) := by exact_mod_cast this
  linarith

/-- A rational that is a whole number of cents. -/
def IsCent (q : ℚ) : Prop := ∃ n : Int, q = (n : ℚ) / 100

theorem isCent_round2 (x : ℚ) : IsCent (round2 x) := ⟨rnd (x * 100), rfl⟩

theorem isCent_zero : IsCent 0 := ⟨0, by norm_num⟩

theorem isCent_add {a b : ℚ} (ha : IsCent a) (hb : IsCent b) : IsCent (a + b) := by
  obtain ⟨m, hm⟩ := ha
  obtain ⟨n, hn⟩ := hb
  exact ⟨m + n, by rw [hm, hn]; push_cast; ring⟩

theorem rnd_int (n : Int) : rnd (n : ℚ) = n := by
  unfold rnd
  simp [Int.floor_intCast]

theorem round2_isCent {q : ℚ} (h : IsCent q) : round2 q = q := by
  obtain ⟨n, hn⟩ := h
  subst hn
  unfold round2
  have : (n : ℚ) / 100 * 100 = (n : ℚ) := by field_simp
  rw [this, rnd_int]

theorem isCent_list_sum {l : List ℚ} (h : ∀ q ∈ l, IsCent q) : IsCent l.sum := by
  induction l with
  | nil => simpa using isCent_zero
  | cons a t ih =>
      simp only [List.sum_cons]
      exact isCent_add (h a (by simp)) (ih (fun q hq => h q (by simp [hq])))

/-! ### Python dict / truthiness helpers -/

/-- A Python `dict[int, float]` (the forecast map): a finite key list
(distinct in any real dict) with a value function. -/
structure FMap where
  keys : List Int
  val : Int → ℚ

/-- `d.get(p, 0)` on a forecast map. -/
def fmapGet (m : FMap) (p : Int) : ℚ := if p ∈ m.keys then m.val p else 0

/-- Python truthiness of an optional int: `None` and `0` are falsy. -/
def optTruthy : Option Int → Bool
  | none => false
  | some n => decide (n ≠ 0)

/-- Python truthiness of an optional dict: `None` and `{}` are falsy. -/
def fmapTruthy : Option FMap → Bool
  | none => false
  | some m => decide (m.keys ≠ [])

/-! ### Output shapes and the result envelope -/

/-- One per-period row of `_forecast_comparison` (monetary fields carry the
values as emitted, i.e. already rounded to 2 decimals). -/
structure FRow where
  period : Int
  actual : ℚ
  forecast : ℚ
  variance : ℚ
  variance_pct : ℚ
  status : String
deriving DecidableEq, Repr

structure ForecastSummary where
  total_actual : ℚ
  total_forecast : ℚ
  total_variance : ℚ
  total_variance_pct : ℚ
deriving DecidableEq, Repr

structure ForecastOutput where
  status : String
  year : Int
  period : String
  results : List FRow
  summary : ForecastSummary
  data_available_for : List Int
  data_missing_for : List Int
deriving DecidableEq, Repr

/-- One per-period row of `_yoy_comparison`. -/
structure YRow where
  period : Int
  current_year_value : ℚ
  compare_year_value : ℚ
  change : ℚ
  change_pct : ℚ
deriving DecidableEq, Repr

structure YoYSummary where
  total_current : ℚ
  total_compare : ℚ
  total_change : ℚ
  total_change_pct : ℚ
deriving DecidableEq, Repr

structure YoYOutput where
  status : String
  current_year : Int
  compare_year : Int
  period : String
  results : List YRow
  summary : YoYSummary
  data_available_for : List Int
  data_missing_for : List Int
deriving DecidableEq, Repr

/-- One per-period row of `_growth`; `previous` and `growth_pct` are
optional (`null` in the JSON output). -/
structure GRow where
  period : Int
  current : ℚ
  previous : Option ℚ
  growth_pct : Option ℚ
deriving DecidableEq, Repr

structure GrowthSummary where
  average_growth_pct : Option ℚ
deriving DecidableEq, Repr

structure GrowthOutput where
  status : String
  year : Int
  period : String
  results : List GRow
  summary : GrowthSummary
  data_available_for : List Int
  data_missing_for : List Int
deriving DecidableEq, Repr

/-- One per-category row of `_category_breakdown`. -/
structure CRow where
  category : String
  amount : ℚ
  percentage_of_total : ℚ
deriving DecidableEq, Repr

structure CategorySummary where
  total : ℚ
  category_count : Nat
deriving DecidableEq, Repr

structure CategoryOutput where
  status : String
  year : Int
  period : String
  results : List CRow
  summary : CategorySummary
  data_available_for : List Int
  data_missing_for : List Int
deriving DecidableEq, Repr

/-- The value returned by `calculate_metrics`: either the error envelope
`{"status": "error", "message": ...}` or one of the four success shapes. -/
inductive MetricOutput where
  | err (message : String)
  | forecastOut (o : ForecastOutput)
  | yoyOut (o : YoYOutput)
  | growthOut (o : GrowthOutput)
  | categoryOut (o : CategoryOutput)
deriving DecidableEq, Repr

/-- Does a `MetricOutput` carry any per-period result rows? -/
def MetricOutput.hasResults : MetricOutput → Bool
  | .err _ => false
  | .forecastOut o => !o.results.isEmpty
  | .yoyOut o => !o.results.isEmpty
  | .growthOut o => !o.results.isEmpty
  | .categoryOut o => !o.results.isEmpty

/-! ### `_forecast_comparison` -/

/-- Status tag of a forecast row, decided on the raw (unrounded)
variance. -/
def forecastStatus (variance : ℚ) : String :=
  if variance > 0 then "above_forecast"
  else if variance < 0 then "below_forecast"
  else "on_target"

/-- The row built for period `p` in the `_forecast_comparison` loop. -/
def forecastRow (db : List SalesRecord) (y : Int) (gran : String)
    (fv : FMap) (p : Int) : FRow :=
  let forecast := fmapGet fv p
  let actual := aggGet db y gran p
  let variance := actual - forecast
  let variance_pct := if forecast = 0 then 0 else variance / forecast * 100
  { period := p
    actual := round2 actual
    forecast := round2 forecast
    variance := round2 variance
    variance_pct := round2 variance_pct
    status := forecastStatus variance }

/-- `periods_to_check`: the single (truthy) filter period, else the
ascending-sorted union of actual and forecast keys. -/
def forecastPeriods (db : List SalesRecord) (y : Int) (gran : String)
    (pn : Option Int) (fv : FMap) : List Int :=
  if optTruthy pn then [pn.getD 0]
  else sortedKeys (aggKeys db y gran ++ fv.keys)

/-- The successful body of `_forecast_comparison` (everything after the
required-parameter guard). -/
def forecastSuccess (db : List SalesRecord) (y : Int) (gran : String)
    (pn : Option Int) (m : FMap) : ForecastOutput :=
  let results := (forecastPeriods db y gran pn m).map (forecastRow db y gran m)
  let total_actual := (results.map FRow.actual).sum
  let total_forecast := (results.map FRow.forecast).sum
  let total_variance := total_actual - total_forecast
  let total_variance_pct :=
    if total_forecast = 0 then 0 else total_variance / total_forecast * 100
  let has_data := y ∈ yearsWithData db
  { status := "success"
    year := y
    period := gran
    results := results
    summary :=
      { total_actual := round2 total_actual
        total_forecast := round2 total_forecast
        total_variance := round2 total_variance
        total_variance_pct := round2 total_variance_pct }
    data_available_for := if has_data then [y] else []
    data_missing_for := if has_data then [] else [y] }

/-- `_forecast_comparison`. -/
def forecast_comparison (db : List SalesRecord) (y : Int) (gran : String)
    (pn : Option Int) (fv : Option FMap) : MetricOutput :=
  if fmapTruthy fv then
    .forecastOut (forecastSuccess db y gran pn (fv.getD ⟨[], fun _ => 0⟩))
  else
    .err "forecast_values is required for forecast_comparison"

/-! ### `_yoy_comparison` -/

/-- The row built for period `p` in the `_yoy_comparison` loop. -/
def yoyRow (db : List SalesRecord) (y cy : Int) (gran : String) (p : Int) :
    YRow :=
  let curr_val := aggGet db y gran p
  let prev_val := aggGet db cy gran p
  let change := curr_val - prev_val
  let change_pct := if prev_val = 0 then 0 else change / prev_val * 100
  { period := p
    current_year_value := round2 curr_val
    compare_year_value := round2 prev_val
    change := round2 change
    change_pct := round2 change_pct }

/-- `periods_to_check` for YoY. -/
def yoyPeriods (db : List SalesRecord) (y cy : Int) (gran : String)
    (pn : Option Int) : List Int :=
  if optTruthy pn then [pn.getD 0]
  else sortedKeys (aggKeys db y gran ++ aggKeys db cy gran)

/-- The successful body of `_yoy_comparison` (everything after the
required-parameter guard). -/
def yoySuccess (db : List SalesRecord) (y : Int) (gran : String)
    (pn : Option Int) (c : Int) : YoYOutput :=
  let results := (yoyPeriods db y c gran pn).map (yoyRow db y c gran)
  let total_current := aggTotal db y gran
  let total_previous := aggTotal db c gran
  let total_change := total_current - total_previous
  let total_change_pct :=
    if total_previous = 0 then 0 else total_change / total_previous * 100
  { status := "success"
    current_year := y
    compare_year := c
    period := gran
    results := results
    summary :=
      { total_current := round2 total_current
        total_compare := round2 total_previous
        total_change := round2 total_change
        total_change_pct := round2 total_change_pct }
    data_available_for := [y, c].filter (fun z => z ∈ yearsWithData db)
    data_missing_for := [y, c].filter (fun z => z ∉ yearsWithData db) }

/-- `_yoy_comparison`. -/
def yoy_comparison (db : List SalesRecord) (y : Int) (gran : String)
    (pn : Option Int) (cy : Option Int) : MetricOutput :=
  if optTruthy cy then
    .yoyOut (yoySuccess db y gran pn (cy.getD 0))
  else
    .err "compare_year is required for yoy_comparison"

/-! ### `_growth` -/

/-- `sorted(sales.keys())`. -/
def sortedPeriods (db : List SalesRecord) (y : Int) (gran : String) :
    List Int :=
  sortedKeys (aggKeys db y gran)

/-- `p in periods_to_report` where
`periods_to_report = [period_number] if period_number else sorted_periods`
(membership in the full sorted list is always true for loop elements). -/
def reportP (pn : Option Int) (p : Int) : Bool :=
  if optTruthy pn then p == pn.getD 0 else true

/-- The row built at loop index `i` for period `p` in `_growth`. -/
def growthRowAt (db : List SalesRecord) (y : Int) (gran : String)
    (sp : List Int) (i : Nat) (p : Int) : GRow :=
  let current := aggVal db y gran p
  let previous : Option ℚ :=
    if i > 0 then aggGetOpt db y gran (sp.getD (i - 1) 0) else none
  let growth_pct : Option ℚ :=
    match previous with
    | none => none
    | some pv => if pv = 0 then none else some ((current - pv) / pv * 100)
  { period := p
    current := round2 current
    previous := previous.map round2
    growth_pct := growth_pct.map round2 }

/-- The result rows of `_growth`: the indexed loop over `sorted_periods`
with the (possibly trivial) period filter. -/
def growthRows (db : List SalesRecord) (y : Int) (gran : String)
    (pn : Option Int) : List GRow :=
  let sp := sortedPeriods db y gran
  (sp.enumFrom 0).filterMap (fun ia =>
    if reportP pn ia.2 then some (growthRowAt db y gran sp ia.1 ia.2) else none)

/-- `average_growth_pct`: mean of the non-null (already rounded)
`growth_pct` fields of the emitted rows, rounded for output;
`null` when there are none. -/
def avgGrowthOf (rows : List GRow) : Option ℚ :=
  let rates := rows.filterMap GRow.growth_pct
  if rates = [] then none else some (round2 (rates.sum / rates.length))

/-- `_growth`. -/
def growth (db : List SalesRecord) (y : Int) (gran : String)
    (pn : Option Int) : MetricOutput :=
  let results := growthRows db y gran pn
  let has_data := y ∈ yearsWithData db
  .growthOut
    { status := "success"
      year := y
      period := gran
      results := results
      summary := { average_growth_pct := avgGrowthOf results }
      data_available_for := if has_data then [y] else []
      data_missing_for := if has_data then [] else [y] }

/-! ### `_category_breakdown` -/

/-- The records selected by the category query's WHERE clause. -/
def catRecords (db : List SalesRecord) (y : Int) (gran : String)
    (pn : Int) : List SalesRecord :=
  db.filter (fun r => r.year = y ∧ recordPeriod gran r = pn)

/-- The distinct categories of the selected records (GROUP BY category). -/
def catKeys (db : List SalesRecord) (y : Int) (gran : String) (pn : Int) :
    List String :=
  ((catRecords db y gran pn).map (fun r => r.category)).dedup

/-- `SUM(amount)` for one category group. -/
def catAmount (db : List SalesRecord) (y : Int) (gran : String) (pn : Int)
    (c : String) : ℚ :=
  (((catRecords db y gran pn).filter (fun r => r.category = c)).map
    (fun r => r.amount)).sum

/-- The grouped rows, sorted by total descending (ORDER BY total DESC). -/
def categoryRows (db : List SalesRecord) (y : Int) (gran : String)
    (pn : Int) : List (String × ℚ) :=
  List.insertionSort (fun a b => b.2 ≤ a.2)
    ((catKeys db y gran pn).map (fun c => (c, catAmount db y gran pn c)))

instance instIsTotalAmountDesc :
    IsTotal (String × ℚ) (fun a b => b.2 ≤ a.2) :=
  ⟨fun a b => le_total b.2 a.2⟩

instance instIsTransAmountDesc :
    IsTrans (String × ℚ) (fun a b => b.2 ≤ a.2) :=
  ⟨fun _ _ _ h1 h2 => le_trans h2 h1⟩

def monthNames : List String :=
  ["", "January", "February", "March", "April", "May", "June",
   "July", "August", "September", "October", "November", "December"]

/-- The human-readable period label of `_category_breakdown`. -/
def periodLabel (gran : String) (pn : Int) : String :=
  if gran = "quarterly" then "Q" ++ toString pn
  else if 1 ≤ pn ∧ pn ≤ 12 then monthNames.getD pn.toNat ""
  else "Month " ++ toString pn

/-- The successful body of `_category_breakdown` (everything after the
required-parameter guard). -/
def categorySuccess (db : List SalesRecord) (y : Int) (gran : String)
    (n : Int) : CategoryOutput :=
  let rows := categoryRows db y gran n
  let total := (rows.map Prod.snd).sum
  let results := rows.map (fun ca =>
    { category := ca.1
      amount := round2 ca.2
      percentage_of_total :=
        round2 (if total = 0 then 0 else ca.2 / total * 100) : CRow })
  let has_data := y ∈ yearsWithData db ∧ rows ≠ []
  { status := "success"
    year := y
    period := periodLabel gran n
    results := results
    summary := { total := round2 total, category_count := results.length }
    data_available_for := if has_data then [y] else []
    data_missing_for := if has_data then [] else [y] }

/-- `_category_breakdown`. -/
def category_breakdown (db : List SalesRecord) (y : Int) (gran : String)
    (pn : Option Int) : MetricOutput :=
  if optTruthy pn then
    .categoryOut (categorySuccess db y gran (pn.getD 0))
  else
    .err "period_number is required for category_breakdown"

/-! ### `calculate_metrics` (validation + dispatch) -/

/-- The `Literal` check pydantic performs on `metric_type`. -/
def validMetricType (s : String) : Bool :=
  s == "forecast_comparison" || s == "yoy_comparison" ||
  s == "growth" || s == "category_breakdown"

/-- The `Literal` check pydantic performs on `period`. -/
def validPeriod (s : String) : Bool :=
  s == "monthly" || s == "quarterly"

/-- `calculate_metrics`: validation (a pydantic failure is caught by the
`except` clause and becomes the error envelope; the model uses a fixed
representative message for it) followed by dispatch on `metric_type`. -/
def calculate_metrics (db : List SalesRecord) (metric_type : String)
    (year : Int) (period : String) (period_number : Option Int)
    (forecast_values : Option FMap) (compare_year : Option Int) :
    MetricOutput :=
  if ¬ validMetricType metric_type then
    .err ("validation error: metric_type must be one of: forecast_comparison, yoy_comparison, growth, category_breakdown")
  else if ¬ validPeriod period then
    .err "validation error: period must be monthly or quarterly"
  else if metric_type = "forecast_comparison" then
    forecast_comparison db year period period_number forecast_values
  else if metric_type = "yoy_comparison" then
    yoy_comparison db year period period_number compare_year
  else if metric_type = "growth" then
    growth db year period period_number
  else
    category_breakdown db year period period_number

/-! ### Projection helpers for stating claims -/

/-- The summary of a forecast-comparison success result, if that is what
the envelope holds. -/
def MetricOutput.forecastSummary? : MetricOutput → Option ForecastSummary
  | .forecastOut o => some o.summary
  | _ => none

/-- The `average_growth_pct` summary of a growth success result, if that
is what the envelope holds (`some none` = the JSON `null`). -/
def MetricOutput.growthAvg? : MetricOutput → Option (Option ℚ)
  | .growthOut o => some o.summary.average_growth_pct
  | _ => none

/-- Mean-then-round of a list of growth rates, `none` when empty (the
summary recipe of `_growth`). -/
def mkAvg (l : List ℚ) : Option ℚ :=
  if l = [] then none else some (round2 (l.sum / l.length))

/-- Modelled from the spec (§4.5): the non-null growth percentages of the
full period series, read off consecutive pairs of the ascending period
sequence — "for each period except the first,
`growth_pct = (current − previous)/previous × 100` guarded against
`previous = 0` by yielding `null`".  Used to state what the summary of a
growth request is an average of. -/
def specGrowthRatesAux (db : List SalesRecord) (y : Int) (gran : String) :
    Int → List Int → List ℚ
  | _, [] => []
  | prev, c :: t =>
      let pv := aggVal db y gran prev
      if pv = 0 then specGrowthRatesAux db y gran c t
      else round2 ((aggVal db y gran c - pv) / pv * 100) ::
        specGrowthRatesAux db y gran c t

/-- Modelled from the spec (§4.5): the defined growth rates of the full
(unfiltered) chronological series. -/
def specGrowthRates (db : List SalesRecord) (y : Int) (gran : String) :
    List ℚ :=
  match sortedPeriods db y gran with
  | [] => []
  | a :: t => specGrowthRatesAux db y gran a t

/-! ### Concrete stores and inputs used by witnesses and counterexamples -/

/-- A small store: one year, three months, two categories. -/
def db0 : List SalesRecord :=
  [⟨2025, 1, "A", 100⟩, ⟨2025, 2, "A", 200⟩, ⟨2025, 3, "B", 150⟩]

/-- A store whose first period sums to 0. -/
def db4 : List SalesRecord :=
  [⟨2025, 1, "A", 0⟩, ⟨2025, 2, "A", 50⟩]

/-- A store with a single data point. -/
def db1 : List SalesRecord :=
  [⟨2025, 1, "A", 100⟩]

/-- A two-year store for YoY witnesses. -/
def db2y : List SalesRecord :=
  [⟨2025, 1, "A", 100⟩, ⟨2025, 3, "A", 50⟩, ⟨2024, 1, "A", 80⟩,
   ⟨2024, 2, "B", 40⟩]

/-- A forecast map `{1: 55000, 4: 300}`. -/
def fv0 : FMap := ⟨[1, 4], fun p => if p = 1 then 55000 else 300⟩

/-- A forecast map `{1: 0.004, 2: 0.004}`: each value rounds to `0.00`
but the raw sum `0.008` rounds to `0.01`. -/
def fv2 : FMap := ⟨[1, 2], fun _ => 1/250⟩

/-! ## Helper lemmas -/

theorem round2_zero : round2 0 = 0 := by
  have : ((0 : Int) : ℚ) / 100 = 0 := by norm_num
  calc round2 0 = (rnd (0 * 100) : ℚ) / 100 := rfl
    _ = (rnd ((0 : Int) : ℚ) : ℚ) / 100 := by norm_num
    _ = 0 := by rw [rnd_int]; norm_num

theorem isCent_sub {a b : ℚ} (ha : IsCent a) (hb : IsCent b) :
    IsCent (a - b) := by
  obtain ⟨m, hm⟩ := ha
  obtain ⟨n, hn⟩ := hb
  exact ⟨m - n, by rw [hm, hn]; push_cast; ring⟩

theorem mem_sortedKeys {l : List Int} {p : Int} :
    p ∈ sortedKeys l ↔ p ∈ l := by
  unfold sortedKeys
  rw [List.mem_insertionSort, List.mem_dedup]

theorem sortedKeys_nodup (l : List Int) : (sortedKeys l).Nodup :=
  (List.perm_insertionSort _ _).nodup_iff.mpr l.nodup_dedup

theorem sortedKeys_sorted (l : List Int) :
    List.Sorted (· < ·) (sortedKeys l) :=
  (List.sorted_insertionSort _ _).lt_of_le (sortedKeys_nodup l)

theorem aggKeys_nodup (db : List SalesRecord) (y : Int) (gran : String) :
    (aggKeys db y gran).Nodup :=
  List.nodup_dedup _

theorem mem_aggKeys {db : List SalesRecord} {y : Int} {gran : String}
    {p : Int} :
    p ∈ aggKeys db y gran ↔ ∃ r ∈ db, r.year = y ∧ recordPeriod gran r = p := by
  unfold aggKeys
  simp only [List.mem_dedup, List.mem_map, List.mem_filter,
    decide_eq_true_eq]
  constructor
  · rintro ⟨r, ⟨hr, hy⟩, hp⟩
    exact ⟨r, hr, hy, hp⟩
  · rintro ⟨r, hr, hy, hp⟩
    exact ⟨r, ⟨hr, hy⟩, hp⟩

theorem aggGet_of_mem {db : List SalesRecord} {y : Int} {gran : String}
    {p : Int} (h : p ∈ aggKeys db y gran) :
    aggGet db y gran p = aggVal db y gran p :=
  if_pos h

theorem aggGet_of_not_mem {db : List SalesRecord} {y : Int} {gran : String}
    {p : Int} (h : p ∉ aggKeys db y gran) :
    aggGet db y gran p = 0 :=
  if_neg h

theorem aggGetOpt_of_mem {db : List SalesRecord} {y : Int} {gran : String}
    {p : Int} (h : p ∈ aggKeys db y gran) :
    aggGetOpt db y gran p = some (aggVal db y gran p) :=
  if_pos h

/-- Summing the defaulted lookup over any duplicate-free list that covers
the aggregation keys gives `sum(d.values())`. -/
theorem sum_map_aggGet {db : List SalesRecord} {y : Int} {gran : String}
    {l : List Int} (hn : l.Nodup)
    (hsub : ∀ p ∈ aggKeys db y gran, p ∈ l) :
    (l.map (aggGet db y gran)).sum = aggTotal db y gran := by
  have h1 : (l.map (aggGet db y gran)).sum =
      l.toFinset.sum (aggGet db y gran) :=
    (List.sum_toFinset _ hn).symm
  have h2 : (aggKeys db y gran).toFinset.sum (aggGet db y gran) =
      ((aggKeys db y gran).map (aggGet db y gran)).sum :=
    List.sum_toFinset _ (aggKeys_nodup db y gran)
  have hsub' : (aggKeys db y gran).toFinset ⊆ l.toFinset := by
    intro p hp
    rw [List.mem_toFinset] at hp ⊢
    exact hsub p hp
  have h3 : l.toFinset.sum (aggGet db y gran) =
      (aggKeys db y gran).toFinset.sum (aggGet db y gran) := by
    refine (Finset.sum_subset hsub' ?_).symm
    intro p _ hp
    rw [List.mem_toFinset] at hp
    exact aggGet_of_not_mem hp
  have h4 : ((aggKeys db y gran).map (aggGet db y gran)).sum =
      ((aggKeys db y gran).map (aggVal db y gran)).sum := by
    apply congrArg
    apply List.map_congr_left
    intro p hp
    exact aggGet_of_mem hp
  rw [h1, h3, h2, h4]
  rfl

theorem sum_map_sub {α : Type} (l : List α) (f g : α → ℚ) :
    (l.map (fun a => f a - g a)).sum = (l.map f).sum - (l.map g).sum := by
  induction l with
  | nil => simp
  | cons a t ih =>
      simp only [List.map_cons, List.sum_cons, ih]
      ring

theorem sum_map_mul_right {α : Type} (l : List α) (f : α → ℚ) (c : ℚ) :
    (l.map (fun a => f a * c)).sum = (l.map f).sum * c := by
  induction l with
  | nil => simp
  | cons a t ih =>
      simp only [List.map_cons, List.sum_cons, ih]
      ring

/-- Rounding each list entry moves the sum by at most half a cent per
entry. -/
theorem sum_map_round2_close (l : List ℚ) :
    |(l.map round2).sum - l.sum| ≤ (l.length : ℚ) / 200 := by
  induction l with
  | nil => simp
  | cons a t ih =>
      simp only [List.map_cons, List.sum_cons, List.length_cons]
      have h1 : round2 a + (t.map round2).sum - (a + t.sum) =
          (round2 a - a) + ((t.map round2).sum - t.sum) := by ring
      rw [h1]
      calc |(round2 a - a) + ((t.map round2).sum - t.sum)|
          ≤ |round2 a - a| + |(t.map round2).sum - t.sum| := abs_add _ _
        _ ≤ 1/200 + (t.length : ℚ) / 200 :=
            add_le_add (round2_close a) ih
        _ = ((t.length : ℚ) + 1) / 200 := by ring
        _ = (((t.length + 1 : Nat)) : ℚ) / 200 := by push_cast; ring

theorem forecast_comparison_some {db : List SalesRecord} {y : Int}
    {gran : String} {pn : Option Int} {m : FMap} (h : m.keys ≠ []) :
    forecast_comparison db y gran pn (some m) =
      .forecastOut (forecastSuccess db y gran pn m) := by
  simp [forecast_comparison, fmapTruthy, h]

theorem yoy_comparison_some {db : List SalesRecord} {y : Int}
    {gran : String} {pn : Option Int} {c : Int} (h : c ≠ 0) :
    yoy_comparison db y gran pn (some c) =
      .yoyOut (yoySuccess db y gran pn c) := by
  simp [yoy_comparison, optTruthy, h]

theorem category_breakdown_some {db : List SalesRecord} {y : Int}
    {gran : String} {n : Int} (h : n ≠ 0) :
    category_breakdown db y gran (some n) =
      .categoryOut (categorySuccess db y gran n) := by
  simp [category_breakdown, optTruthy, h]

@[simp]
theorem forecastRow_period (db : List SalesRecord) (y : Int) (gran : String)
    (m : FMap) (p : Int) : (forecastRow db y gran m p).period = p := rfl

@[simp]
theorem yoyRow_period (db : List SalesRecord) (y cy : Int) (gran : String)
    (p : Int) : (yoyRow db y cy gran p).period = p := rfl

theorem forecastSuccess_results (db : List SalesRecord) (y : Int)
    (gran : String) (pn : Option Int) (m : FMap) :
    (forecastSuccess db y gran pn m).results =
      (forecastPeriods db y gran pn m).map (forecastRow db y gran m) := rfl

theorem forecastPeriods_none (db : List SalesRecord) (y : Int)
    (gran : String) (m : FMap) :
    forecastPeriods db y gran none m =
      sortedKeys (aggKeys db y gran ++ m.keys) := by
  simp [forecastPeriods, optTruthy]

theorem forecastSuccess_periods_map (db : List SalesRecord) (y : Int)
    (gran : String) (pn : Option Int) (m : FMap) :
    (forecastSuccess db y gran pn m).results.map FRow.period =
      forecastPeriods db y gran pn m := by
  rw [forecastSuccess_results, List.map_map]
  have h0 : FRow.period ∘ forecastRow db y gran m = id := funext fun _ => rfl
  rw [h0, List.map_id]

/-! ## Claim theorems -/

/-- C1: for a forecast_comparison request with a non-empty forecast map
and no period filter, the rows cover exactly the ascending-sorted union
of the actual and forecast period keys, each side defaulting to 0, with
`variance = actual - forecast`, the zero-divide guard on `variance_pct`,
and the three-way status tag decided by the sign of the variance. -/
theorem forecast_rows_correct (db : List SalesRecord) (y : Int)
    (gran : String) (fv : FMap) (hfv : fv.keys ≠ []) :
    ∃ o, forecast_comparison db y gran none (some fv) = .forecastOut o ∧
      List.Sorted (· < ·) (o.results.map FRow.period) ∧
      (∀ p : Int, p ∈ o.results.map FRow.period ↔
        p ∈ aggKeys db y gran ∨ p ∈ fv.keys) ∧
      ∀ row ∈ o.results,
        row.actual = round2 (aggGet db y gran row.period) ∧
        row.forecast = round2 (fmapGet fv row.period) ∧
        row.variance =
          round2 (aggGet db y gran row.period - fmapGet fv row.period) ∧
        (fmapGet fv row.period ≠ 0 →
          row.variance_pct = round2
            ((aggGet db y gran row.period - fmapGet fv row.period) /
              fmapGet fv row.period * 100)) ∧
        (fmapGet fv row.period = 0 → row.variance_pct = 0) ∧
        (aggGet db y gran row.period - fmapGet fv row.period > 0 →
          row.status = "above_forecast") ∧
        (aggGet db y gran row.period - fmapGet fv row.period < 0 →
          row.status = "below_forecast") ∧
        (aggGet db y gran row.period = fmapGet fv row.period →
          row.status = "on_target") := by
  refine ⟨forecastSuccess db y gran none fv, forecast_comparison_some hfv,
    ?_, ?_, ?_⟩
  · rw [forecastSuccess_periods_map, forecastPeriods_none]
    exact sortedKeys_sorted _
  · intro p
    rw [forecastSuccess_periods_map, forecastPeriods_none, mem_sortedKeys,
      List.mem_append]
  · intro row hrow
    rw [forecastSuccess_results] at hrow
    obtain ⟨p, _, rfl⟩ := List.mem_map.mp hrow
    rw [forecastRow_period]
    refine ⟨rfl, rfl, rfl, ?_, ?_, ?_, ?_, ?_⟩
    · intro h
      simp [forecastRow, h]
    · intro h
      simp [forecastRow, h, round2_zero]
    · intro h
      simp only [forecastRow, forecastStatus]
      rw [if_pos h]
    · intro h
      simp only [forecastRow, forecastStatus]
      rw [if_neg (by linarith), if_pos h]
    · intro h
      simp only [forecastRow, forecastStatus]
      rw [if_neg (by simp [h]), if_neg (by simp [h])]

/-- C1 witness: the hypothesis holds and the theorem applies at a
concrete store and forecast map. -/
theorem forecast_rows_correct_witness :
    fv0.keys ≠ [] ∧
      ∃ o, forecast_comparison db0 2025 "monthly" none (some fv0) =
        .forecastOut o :=
  ⟨by decide,
    match forecast_rows_correct db0 2025 "monthly" fv0 (by decide) with
    | ⟨o, h, _⟩ => ⟨o, h⟩⟩

/-- C2 counterexample: with an empty store and forecast map
`{1: 0.004, 2: 0.004}` the code's `total_forecast` is `0.0` (it sums the
already-rounded per-period forecasts), while the claimed raw-sum recipe
gives `round2 0.008 = 0.01`. -/
theorem forecast_totals_cex :
    (forecast_comparison [] 2025 "monthly" none
        (some fv2)).forecastSummary?.map ForecastSummary.total_forecast =
      some 0 ∧
    round2 (((forecastPeriods [] 2025 "monthly" none fv2).map
        (fmapGet fv2)).sum) = 1/100 ∧
    ((0 : ℚ) ≠ 1/100) := by
  decide

/-- C2 amended: the summary totals equal the plain sums of the
already-rounded per-period `actual` and `forecast` figures (on which the
output-boundary rounding is the identity), and `total_variance` is their
difference; the per-period figures themselves are the rounded raw
values. -/
theorem forecast_totals_amended (db : List SalesRecord) (y : Int)
    (gran : String) (pn : Option Int) (fv : FMap) (hfv : fv.keys ≠ []) :
    ∃ o, forecast_comparison db y gran pn (some fv) = .forecastOut o ∧
      o.summary.total_actual = (o.results.map FRow.actual).sum ∧
      o.summary.total_forecast = (o.results.map FRow.forecast).sum ∧
      o.summary.total_variance =
        (o.results.map FRow.actual).sum -
          (o.results.map FRow.forecast).sum ∧
      ∀ r ∈ o.results, r.actual = round2 (aggGet db y gran r.period) ∧
        r.forecast = round2 (fmapGet fv r.period) := by
  have hca : IsCent
      (((forecastSuccess db y gran pn fv).results.map FRow.actual).sum) := by
    apply isCent_list_sum
    intro q hq
    obtain ⟨r, hr, rfl⟩ := List.mem_map.mp hq
    rw [forecastSuccess_results] at hr
    obtain ⟨p, _, rfl⟩ := List.mem_map.mp hr
    exact isCent_round2 _
  have hcf : IsCent
      (((forecastSuccess db y gran pn fv).results.map FRow.forecast).sum) := by
    apply isCent_list_sum
    intro q hq
    obtain ⟨r, hr, rfl⟩ := List.mem_map.mp hq
    rw [forecastSuccess_results] at hr
    obtain ⟨p, _, rfl⟩ := List.mem_map.mp hr
    exact isCent_round2 _
  refine ⟨forecastSuccess db y gran pn fv, forecast_comparison_some hfv,
    round2_isCent hca, round2_isCent hcf,
    round2_isCent (isCent_sub hca hcf), ?_⟩
  intro r hr
  rw [forecastSuccess_results] at hr
  obtain ⟨p, _, rfl⟩ := List.mem_map.mp hr
  exact ⟨rfl, rfl⟩

/-- C2 witness for the amended theorem. -/
theorem forecast_totals_amended_witness :
    fv0.keys ≠ [] ∧
      ∃ o, forecast_comparison db0 2025 "monthly" none (some fv0) =
        .forecastOut o ∧
        o.summary.total_actual = (o.results.map FRow.actual).sum :=
  ⟨by decide,
    match forecast_totals_amended db0 2025 "monthly" none fv0 (by decide) with
    | ⟨o, h1, h2, _⟩ => ⟨o, h1, h2⟩⟩

/-- C3: for an unfiltered YoY request, `change_pct = 0` for every period
whose compare-year value is 0, and the summary `total_change` is the
rounded sum of the per-period raw changes, a sum that is invariant under
any reordering of the period list. -/
theorem yoy_change_props (db : List SalesRecord) (y : Int) (gran : String)
    (cy : Int) (hcy : cy ≠ 0) :
    ∃ o, yoy_comparison db y gran none (some cy) = .yoyOut o ∧
      (∀ r ∈ o.results, aggGet db cy gran r.period = 0 →
        r.change_pct = 0) ∧
      o.summary.total_change = round2 (((o.results.map YRow.period).map
        (fun p => aggGet db y gran p - aggGet db cy gran p)).sum) ∧
      (∀ l : List Int, l.Perm (o.results.map YRow.period) →
        (l.map (fun p => aggGet db y gran p - aggGet db cy gran p)).sum =
        ((o.results.map YRow.period).map
          (fun p => aggGet db y gran p - aggGet db cy gran p)).sum) := by
  have hres : (yoySuccess db y gran none cy).results =
      (yoyPeriods db y cy gran none).map (yoyRow db y cy gran) := rfl
  have hper : yoyPeriods db y cy gran none =
      sortedKeys (aggKeys db y gran ++ aggKeys db cy gran) := by
    simp [yoyPeriods, optTruthy]
  have hmap : (yoySuccess db y gran none cy).results.map YRow.period =
      yoyPeriods db y cy gran none := by
    rw [hres, List.map_map]
    have h0 : YRow.period ∘ yoyRow db y cy gran = id := funext fun _ => rfl
    rw [h0, List.map_id]
  refine ⟨yoySuccess db y gran none cy, yoy_comparison_some hcy, ?_, ?_, ?_⟩
  · intro r hr
    rw [hres] at hr
    obtain ⟨p, _, rfl⟩ := List.mem_map.mp hr
    rw [yoyRow_period]
    intro h0
    simp [yoyRow, h0, round2_zero]
  · rw [hmap]
    have hsum : ((yoyPeriods db y cy gran none).map
        (fun p => aggGet db y gran p - aggGet db cy gran p)).sum =
        aggTotal db y gran - aggTotal db cy gran := by
      rw [sum_map_sub]
      rw [sum_map_aggGet (hper ▸ sortedKeys_nodup _) ?_,
        sum_map_aggGet (hper ▸ sortedKeys_nodup _) ?_]
      · intro p hp
        rw [hper, mem_sortedKeys, List.mem_append]
        exact Or.inr hp
      · intro p hp
        rw [hper, mem_sortedKeys, List.mem_append]
        exact Or.inl hp
    exact congrArg round2 hsum.symm
  · intro l hl
    exact (hl.map _).sum_eq

/-- C3 witness. -/
theorem yoy_change_props_witness :
    ((2024 : Int) ≠ 0) ∧
      ∃ o, yoy_comparison db2y 2025 "monthly" none (some 2024) = .yoyOut o :=
  ⟨by decide,
    match yoy_change_props db2y 2025 "monthly" 2024 (by decide) with
    | ⟨o, h, _⟩ => ⟨o, h⟩⟩

/-! ### Growth helper lemmas -/

theorem sortedPeriods_nodup (db : List SalesRecord) (y : Int)
    (gran : String) : (sortedPeriods db y gran).Nodup :=
  sortedKeys_nodup _

theorem mem_sortedPeriods {db : List SalesRecord} {y : Int} {gran : String}
    {p : Int} : p ∈ sortedPeriods db y gran ↔ p ∈ aggKeys db y gran :=
  mem_sortedKeys

theorem aggKeys_pos {db : List SalesRecord} {y : Int} {gran : String}
    {p : Int} (hdb : ValidDB db) (hp : p ∈ aggKeys db y gran) : 1 ≤ p := by
  rw [mem_aggKeys] at hp
  obtain ⟨r, hr, _, hper⟩ := hp
  have hm := (hdb r hr).1
  unfold recordPeriod at hper
  split at hper
  · omega
  · omega

/-- With no period filter the growth loop keeps every period. -/
theorem growthRows_none (db : List SalesRecord) (y : Int) (gran : String) :
    growthRows db y gran none =
      ((sortedPeriods db y gran).enumFrom 0).map
        (fun ia => growthRowAt db y gran (sortedPeriods db y gran)
          ia.1 ia.2) := by
  show List.filterMap _ _ = _
  exact congrFun (List.filterMap_eq_map _) _

/-- The growth loop with a filter is the filter of the unfiltered rows. -/
theorem growthRows_filter (db : List SalesRecord) (y : Int) (gran : String)
    (pn : Option Int) :
    growthRows db y gran pn =
      (growthRows db y gran none).filter
        (fun r => reportP pn r.period) := by
  rw [growthRows_none]
  show List.filterMap _ _ = _
  generalize (sortedPeriods db y gran).enumFrom 0 = L
  induction L with
  | nil => rfl
  | cons a t ih =>
      rw [List.filterMap_cons, List.map_cons, List.filter_cons]
      have hper : (growthRowAt db y gran (sortedPeriods db y gran)
          a.1 a.2).period = a.2 := rfl
      rw [hper]
      cases hqa : reportP pn a.2 with
      | false => simp only [hqa, ih, Bool.false_eq_true, if_false]
      | true => simp only [hqa, ih, if_true]

theorem growthRows_none_periods (db : List SalesRecord) (y : Int)
    (gran : String) :
    (growthRows db y gran none).map GRow.period =
      sortedPeriods db y gran := by
  rw [growthRows_none, List.map_map]
  have h0 : (GRow.period ∘ fun ia =>
      growthRowAt db y gran (sortedPeriods db y gran) ia.1 ia.2) =
      Prod.snd := funext fun _ => rfl
  rw [h0, List.enumFrom_map_snd]

/-- Positional characterization of the unfiltered growth rows. -/
theorem growthRows_none_getElem (db : List SalesRecord) (y : Int)
    (gran : String) (i : Nat)
    (hi : i < (sortedPeriods db y gran).length) :
    (growthRows db y gran none)[i]? =
      some (growthRowAt db y gran (sortedPeriods db y gran) i
        ((sortedPeriods db y gran).getD i 0)) := by
  rw [growthRows_none, List.getElem?_map, List.getElem?_enumFrom,
    List.getElem?_eq_getElem hi]
  rw [List.getD_eq_getElem _ _ hi]
  simp

theorem growthRowAt_zero (db : List SalesRecord) (y : Int) (gran : String)
    (sp : List Int) (p : Int) :
    (growthRowAt db y gran sp 0 p).previous = none ∧
      (growthRowAt db y gran sp 0 p).growth_pct = none := by
  constructor <;> rfl

/-- The `previous` and `growth_pct` of a row at a positive index, when the
looked-up predecessor key is an aggregation key. -/
theorem growthRowAt_succ (db : List SalesRecord) (y : Int) (gran : String)
    (sp : List Int) (i : Nat) (p : Int)
    (hmem : sp.getD i 0 ∈ aggKeys db y gran) :
    (growthRowAt db y gran sp (i + 1) p).previous =
      some (round2 (aggVal db y gran (sp.getD i 0))) ∧
    (growthRowAt db y gran sp (i + 1) p).growth_pct =
      (if aggVal db y gran (sp.getD i 0) = 0 then none
       else some (round2 ((aggVal db y gran p -
         aggVal db y gran (sp.getD i 0)) /
           aggVal db y gran (sp.getD i 0) * 100))) := by
  unfold growthRowAt
  simp only [Nat.add_sub_cancel, gt_iff_lt, Nat.succ_pos, if_true,
    aggGetOpt_of_mem hmem]
  constructor
  · rfl
  · split
    · rfl
    · rfl

/-- C4: in an unfiltered growth result the first row carries
`previous = null` and `growth_pct = null`; any row whose chronological
predecessor sums to 0 carries `growth_pct = null`; and a one-period
series yields a `null` average. -/
theorem growth_null_semantics (db : List SalesRecord) (y : Int)
    (gran : String) :
    ∃ o, growth db y gran none = .growthOut o ∧
      o.results = growthRows db y gran none ∧
      o.summary.average_growth_pct = avgGrowthOf (growthRows db y gran none) ∧
      (∀ r, (growthRows db y gran none).head? = some r →
        r.previous = none ∧ r.growth_pct = none) ∧
      (∀ (i : Nat) (r : GRow), (growthRows db y gran none)[i + 1]? = some r →
        aggVal db y gran ((sortedPeriods db y gran).getD i 0) = 0 →
        r.growth_pct = none) ∧
      ((sortedPeriods db y gran).length = 1 →
        avgGrowthOf (growthRows db y gran none) = none) := by
  have hlen : (growthRows db y gran none).length =
      (sortedPeriods db y gran).length := by
    rw [growthRows_none, List.length_map, List.enumFrom_length]
  refine ⟨_, rfl, rfl, rfl, ?_, ?_, ?_⟩
  · intro r hr
    rw [List.head?_eq_getElem?] at hr
    have h0 : 0 < (sortedPeriods db y gran).length := by
      by_contra h
      have hnil : sortedPeriods db y gran = [] :=
        List.length_eq_zero.mp (by omega)
      rw [growthRows_none, hnil] at hr
      simp at hr
    rw [growthRows_none_getElem db y gran 0 h0] at hr
    obtain rfl : growthRowAt db y gran (sortedPeriods db y gran) 0
        ((sortedPeriods db y gran).getD 0 0) = r := by
      injection hr
    exact growthRowAt_zero db y gran _ _
  · intro i r hr hzero
    have hi1 : i + 1 < (sortedPeriods db y gran).length := by
      by_contra h
      rw [← hlen] at h
      rw [List.getElem?_eq_none (by omega)] at hr
      exact Option.noConfusion hr
    have hmem : (sortedPeriods db y gran).getD i 0 ∈ aggKeys db y gran := by
      rw [← mem_sortedPeriods]
      rw [List.getD_eq_getElem _ _ (by omega)]
      exact List.getElem_mem _
    rw [growthRows_none_getElem db y gran (i + 1) hi1] at hr
    obtain rfl : growthRowAt db y gran (sortedPeriods db y gran) (i + 1)
        ((sortedPeriods db y gran).getD (i + 1) 0) = r := by
      injection hr
    rw [(growthRowAt_succ db y gran _ i _ hmem).2, if_pos hzero]
  · intro hone
    obtain ⟨a, ha⟩ := List.length_eq_one.mp hone
    have hrows : growthRows db y gran none =
        [growthRowAt db y gran (sortedPeriods db y gran) 0 a] := by
      rw [growthRows_none, ha]
      rfl
    rw [hrows]
    have hg : (growthRowAt db y gran (sortedPeriods db y gran) 0 a).growth_pct
        = none := (growthRowAt_zero db y gran _ _).2
    simp [avgGrowthOf, hg]

/-- C4 witness: a store with a zero-sum first period and a single-point
store exercise the hypotheses. -/
theorem growth_null_semantics_witness :
    (∃ r, (growthRows db4 2025 "monthly" none)[0 + 1]? = some r ∧
      aggVal db4 2025 "monthly"
        ((sortedPeriods db4 2025 "monthly").getD 0 0) = 0 ∧
      r.growth_pct = none) ∧
    avgGrowthOf (growthRows db1 2025 "monthly" none) = none :=
  ⟨⟨⟨2, 50, some 0, none⟩, by decide, by decide,
    match growth_null_semantics db4 2025 "monthly" with
    | ⟨_, _, _, _, _, h, _⟩ => h 0 ⟨2, 50, some 0, none⟩ (by decide) (by decide)⟩,
    match growth_null_semantics db1 2025 "monthly" with
    | ⟨_, _, _, _, _, _, h⟩ => h (by decide)⟩

/-- Filtering a list of rows with pairwise-distinct periods for the
period of one of its members keeps exactly that member. -/
theorem filter_period_singleton {L : List GRow}
    (hnd : (L.map GRow.period).Nodup) {r : GRow} (hr : r ∈ L) :
    L.filter (fun x => x.period == r.period) = [r] := by
  induction L with
  | nil => cases hr
  | cons b t ih =>
      rw [List.map_cons, List.nodup_cons] at hnd
      rcases List.mem_cons.mp hr with rfl | hrt
      · have hnil : t.filter (fun x => x.period == r.period) = [] := by
          rw [List.filter_eq_nil_iff]
          intro x hx hbeq
          rw [beq_iff_eq] at hbeq
          exact hnd.1 (hbeq ▸ List.mem_map_of_mem GRow.period hx)
        rw [List.filter_cons]
        simp only [beq_self_eq_true, if_true, hnil]
      · have hbne : (b.period == r.period) = false := by
          rw [beq_eq_false_iff_ne]
          intro he
          exact hnd.1 (he ▸ List.mem_map_of_mem GRow.period hrt)
        rw [List.filter_cons]
        simp only [hbne, Bool.false_eq_true, if_false]
        exact ih hnd.2 hrt

/-- The filtered growth loop at a data-bearing period keeps exactly the
row built at that period's index in the full sorted sequence. -/
theorem growthRows_single (db : List SalesRecord) (y : Int) (gran : String)
    (p : Int) (hdb : ValidDB db) (hp : p ∈ aggKeys db y gran) :
    ∃ (i0 : Nat) (hi0 : i0 < (sortedPeriods db y gran).length),
      (sortedPeriods db y gran).get ⟨i0, hi0⟩ = p ∧
      growthRows db y gran (some p) =
        [growthRowAt db y gran (sortedPeriods db y gran) i0 p] := by
  have hp0 : p ≠ 0 := by
    have := aggKeys_pos hdb hp
    omega
  have hpsp : p ∈ sortedPeriods db y gran := mem_sortedPeriods.mpr hp
  obtain ⟨⟨i0, hi0⟩, hget⟩ := List.mem_iff_get.mp hpsp
  have hgetd : (sortedPeriods db y gran).getD i0 0 = p := by
    rw [List.getD_eq_getElem _ _ hi0]
    exact hget
  have hchar : (growthRows db y gran none)[i0]? =
      some (growthRowAt db y gran (sortedPeriods db y gran) i0 p) := by
    rw [growthRows_none_getElem db y gran i0 hi0, hgetd]
  have hmem : growthRowAt db y gran (sortedPeriods db y gran) i0 p ∈
      growthRows db y gran none := by
    obtain ⟨h, he⟩ := List.getElem?_eq_some_iff.mp hchar
    exact he ▸ List.getElem_mem h
  have hperiod : (growthRowAt db y gran (sortedPeriods db y gran) i0
      p).period = p := rfl
  refine ⟨i0, hi0, hget, ?_⟩
  rw [growthRows_filter]
  have hfun : (fun x : GRow => reportP (some p) x.period) =
      (fun x : GRow => x.period ==
        (growthRowAt db y gran (sortedPeriods db y gran) i0 p).period) := by
    funext x
    rw [hperiod]
    simp [reportP, optTruthy, hp0]
  rw [hfun]
  exact filter_period_singleton
    ((growthRows_none_periods db y gran).symm ▸
      sortedPeriods_nodup db y gran) hmem

/-- C5: a growth request filtered to a period `p` that has data emits
exactly one row, whose `previous` is the sum of the period immediately
preceding `p` in the full ascending sequence of periods with data (and
`null` when `p` is chronologically first). -/
theorem growth_filtered_single (db : List SalesRecord) (y : Int)
    (gran : String) (p : Int) (hdb : ValidDB db)
    (hp : p ∈ aggKeys db y gran) :
    ∃ r, growthRows db y gran (some p) = [r] ∧ r.period = p ∧
      r.current = round2 (aggVal db y gran p) ∧
      ∀ (i : Nat) (hi : i < (sortedPeriods db y gran).length),
        (sortedPeriods db y gran).get ⟨i, hi⟩ = p →
        r.previous = (if i = 0 then none
          else some (round2 (aggVal db y gran
            ((sortedPeriods db y gran).getD (i - 1) 0)))) := by
  obtain ⟨i0, hi0, hget, hrows⟩ := growthRows_single db y gran p hdb hp
  refine ⟨growthRowAt db y gran (sortedPeriods db y gran) i0 p, hrows, rfl,
    rfl, ?_⟩
  intro i hi hgeti
  have hieq : i = i0 := by
    have hnd := sortedPeriods_nodup db y gran
    have : (⟨i, hi⟩ : Fin _) = ⟨i0, hi0⟩ :=
      hnd.get_inj_iff.mp (hgeti.trans hget.symm)
    exact congrArg Fin.val this
  subst hieq
  cases i with
  | zero =>
      rw [if_pos rfl]
      exact (growthRowAt_zero db y gran _ _).1
  | succ j =>
      rw [if_neg (Nat.succ_ne_zero j)]
      have hjmem : (sortedPeriods db y gran).getD j 0 ∈
          aggKeys db y gran := by
        rw [← mem_sortedPeriods, List.getD_eq_getElem _ _ (by omega)]
        exact List.getElem_mem _
      rw [(growthRowAt_succ db y gran _ j p hjmem).1]
      rfl

/-- C5 witness: in `db0`, filtering to period 3 yields one row whose
`previous` is the period-2 sum. -/
theorem growth_filtered_single_witness :
    ValidDB db0 ∧ (3 : Int) ∈ aggKeys db0 2025 "monthly" ∧
      ∃ r, growthRows db0 2025 "monthly" (some 3) = [r] ∧ r.period = 3 :=
  ⟨by decide, by decide,
    match growth_filtered_single db0 2025 "monthly" 3 (by decide) (by decide) with
    | ⟨r, h1, h2, _⟩ => ⟨r, h1, h2⟩⟩

/-- C6 counterexample: on `db0` (months 1..3, sums 100/200/150) the full
series has defined growth rates 100% and −25%, mean 37.5; but a request
filtered to period 2 reports `average_growth_pct = 100`, the mean of the
single emitted row only — not the full-series mean. -/
theorem growth_avg_cex :
    (growth db0 2025 "monthly" (some 2)).growthAvg? = some (some 100) ∧
    (growth db0 2025 "monthly" none).growthAvg? = some (some (75/2)) ∧
    ((some (100 : ℚ) : Option ℚ) ≠ some (75/2)) := by
  decide

/-- The growth-rate list of the traversal, read from any suffix of the
sorted period sequence, matches the spec-side consecutive-pair
recursion. -/
theorem growth_rates_aux (db : List SalesRecord) (y : Int) (gran : String)
    (sp : List Int) (hmem : ∀ q ∈ sp, q ∈ aggKeys db y gran) :
    ∀ (t pre : List Int) (a : Int), sp = pre ++ a :: t →
    ((List.enumFrom (pre.length + 1) t).map
      (fun ia => growthRowAt db y gran sp ia.1 ia.2)).filterMap
        GRow.growth_pct = specGrowthRatesAux db y gran a t := by
  intro t
  induction t with
  | nil =>
      intro pre a h
      rfl
  | cons c t' ih =>
      intro pre a h
      have hgetD : sp.getD pre.length 0 = a := by
        rw [List.getD_eq_getElem?_getD, h,
          List.getElem?_append_right (le_refl pre.length)]
        simp
      have hamem : sp.getD pre.length 0 ∈ aggKeys db y gran := by
        rw [hgetD]
        exact hmem a (by rw [h]; simp)
      have hrow := (growthRowAt_succ db y gran sp pre.length c hamem).2
      rw [show List.enumFrom (pre.length + 1) (c :: t') =
        (pre.length + 1, c) :: List.enumFrom (pre.length + 1 + 1) t'
        from rfl]
      rw [List.map_cons, List.filterMap_cons]
      have htail := ih (pre ++ [a]) c (by simp [h])
      rw [List.length_append] at htail
      simp only [List.length_cons, List.length_nil] at htail
      rw [hrow, hgetD]
      unfold specGrowthRatesAux
      by_cases hz : aggVal db y gran a = 0
      · simp only [hz, if_true, if_pos]
        exact htail
      · simp only [hz, if_false, if_neg, Bool.false_eq_true]
        rw [htail]

/-- The non-null growth percentages of an unfiltered growth result are
exactly the spec-side consecutive-pair rates of the full series. -/
theorem growth_rates_eq (db : List SalesRecord) (y : Int) (gran : String) :
    (growthRows db y gran none).filterMap GRow.growth_pct =
      specGrowthRates db y gran := by
  rw [growthRows_none]
  unfold specGrowthRates
  cases hsp : sortedPeriods db y gran with
  | nil => rfl
  | cons a t =>
      rw [show List.enumFrom 0 (a :: t) = (0, a) :: List.enumFrom 1 t
        from rfl]
      rw [List.map_cons, List.filterMap_cons,
        (growthRowAt_zero db y gran (a :: t) a).2]
      have hmem : ∀ q ∈ a :: t, q ∈ aggKeys db y gran := by
        intro q hq
        have hq' : q ∈ sortedPeriods db y gran := by
          rw [hsp]
          exact hq
        exact mem_sortedPeriods.mp hq'
      exact growth_rates_aux db y gran (a :: t) hmem t [] a rfl

/-- Any defined growth percentage in a growth row is a whole number of
cents (it was rounded on output). -/
theorem growthRowAt_growth_isCent (db : List SalesRecord) (y : Int)
    (gran : String) (sp : List Int) (i : Nat) (p : Int) (g : ℚ)
    (hg : (growthRowAt db y gran sp i p).growth_pct = some g) :
    IsCent g := by
  unfold growthRowAt at hg
  simp only at hg
  rcases hopt : (if i > 0 then aggGetOpt db y gran (sp.getD (i - 1) 0)
      else none) with _ | pv
  · rw [hopt] at hg
    exact Option.noConfusion (show (none : Option ℚ) = some g from hg)
  · rw [hopt] at hg
    have hg' : Option.map round2 (if pv = 0 then none
        else some ((aggVal db y gran p - pv) / pv * 100)) = some g := hg
    by_cases hz : pv = 0
    · rw [if_pos hz] at hg'
      simp at hg'
    · rw [if_neg hz] at hg'
      have hg2 : some (round2 ((aggVal db y gran p - pv) / pv * 100)) =
          some g := hg'
      obtain rfl : round2 ((aggVal db y gran p - pv) / pv * 100) = g := by
        injection hg2
      exact isCent_round2 _

/-- C6 amended: the summary average is the mean of the non-null growth
percentages of the *emitted* rows — for an unfiltered request that is the
full chronological series (the spec-side consecutive-pair rates), but for
a filtered request it is computed from the single emitted row only. -/
theorem growth_avg_semantics (db : List SalesRecord) (y : Int)
    (gran : String) :
    (∃ o, growth db y gran none = .growthOut o ∧
      o.summary.average_growth_pct = mkAvg (specGrowthRates db y gran)) ∧
    (∀ p : Int, ValidDB db → p ∈ aggKeys db y gran →
      ∃ o, growth db y gran (some p) = .growthOut o ∧
        o.summary.average_growth_pct =
          o.results.head?.bind GRow.growth_pct) := by
  constructor
  · refine ⟨_, rfl, ?_⟩
    show avgGrowthOf (growthRows db y gran none) = _
    unfold avgGrowthOf mkAvg
    rw [growth_rates_eq]
  · intro p hdb hp
    refine ⟨_, rfl, ?_⟩
    show avgGrowthOf (growthRows db y gran (some p)) =
      (growthRows db y gran (some p)).head?.bind GRow.growth_pct
    obtain ⟨i0, hi0, _, hrows⟩ := growthRows_single db y gran p hdb hp
    rw [hrows]
    cases hg : (growthRowAt db y gran (sortedPeriods db y gran) i0
        p).growth_pct with
    | none => simp [avgGrowthOf, hg]
    | some g =>
        have hcent := growthRowAt_growth_isCent db y gran _ i0 p g hg
        have h1 : (([g] : List ℚ).sum / (([g] : List ℚ).length : ℚ)) = g := by
          simp
        have hlhs : avgGrowthOf [growthRowAt db y gran
            (sortedPeriods db y gran) i0 p] = some g := by
          unfold avgGrowthOf
          simp only [List.filterMap_cons, hg, List.filterMap_nil]
          rw [if_neg (by simp), h1, round2_isCent hcent]
        rw [hlhs]
        simp [hg]

/-- C6 witness for the amended theorem: both branches at concrete
inputs. -/
theorem growth_avg_semantics_witness :
    (∃ o, growth db0 2025 "monthly" none = .growthOut o ∧
      o.summary.average_growth_pct =
        mkAvg (specGrowthRates db0 2025 "monthly")) ∧
    (∃ o, growth db0 2025 "monthly" (some 2) = .growthOut o ∧
      o.summary.average_growth_pct =
        o.results.head?.bind GRow.growth_pct) :=
  ⟨(growth_avg_semantics db0 2025 "monthly").1,
    (growth_avg_semantics db0 2025 "monthly").2 2 (by decide) (by decide)⟩

/-! ### Category-breakdown helper lemmas -/

theorem categoryRows_sorted (db : List SalesRecord) (y : Int)
    (gran : String) (pn : Int) :
    List.Sorted (fun a b : String × ℚ => b.2 ≤ a.2)
      (categoryRows db y gran pn) :=
  List.sorted_insertionSort _ _

theorem categorySuccess_results (db : List SalesRecord) (y : Int)
    (gran : String) (n : Int) :
    (categorySuccess db y gran n).results =
      (categoryRows db y gran n).map (fun ca =>
        { category := ca.1
          amount := round2 ca.2
          percentage_of_total :=
            round2 (if ((categoryRows db y gran n).map Prod.snd).sum = 0
              then 0
              else ca.2 / ((categoryRows db y gran n).map Prod.snd).sum *
                100) : CRow }) := rfl

theorem categorySuccess_avail (db : List SalesRecord) (y : Int)
    (gran : String) (n : Int) :
    (categorySuccess db y gran n).data_available_for =
      (if y ∈ yearsWithData db ∧ categoryRows db y gran n ≠ []
       then [y] else []) := rfl

theorem categorySuccess_missing (db : List SalesRecord) (y : Int)
    (gran : String) (n : Int) :
    (categorySuccess db y gran n).data_missing_for =
      (if y ∈ yearsWithData db ∧ categoryRows db y gran n ≠ []
       then [] else [y]) := rfl

theorem mem_yearsWithData {db : List SalesRecord} {y : Int} :
    y ∈ yearsWithData db ↔ ∃ r ∈ db, r.year = y := by
  unfold yearsWithData
  rw [List.mem_dedup, List.mem_map]

theorem categoryRows_ne_nil {db : List SalesRecord} {y : Int}
    {gran : String} {pn : Int} :
    categoryRows db y gran pn ≠ [] ↔
      ∃ r ∈ db, r.year = y ∧ recordPeriod gran r = pn := by
  have hlen : (categoryRows db y gran pn).length =
      ((catKeys db y gran pn).map
        (fun c => (c, catAmount db y gran pn c))).length :=
    (List.perm_insertionSort _ _).length_eq
  constructor
  · intro hne
    have h1 : (catKeys db y gran pn) ≠ [] := by
      intro h0
      apply hne
      have : (categoryRows db y gran pn).length = 0 := by
        rw [hlen, h0]
        rfl
      exact List.length_eq_zero.mp this
    obtain ⟨c, hc⟩ := List.exists_mem_of_ne_nil _ h1
    unfold catKeys at hc
    rw [List.mem_dedup, List.mem_map] at hc
    obtain ⟨r, hr, _⟩ := hc
    unfold catRecords at hr
    rw [List.mem_filter, decide_eq_true_eq] at hr
    exact ⟨r, hr.1, hr.2⟩
  · rintro ⟨r, hr, hy, hp⟩
    intro h0
    have h1 : (catKeys db y gran pn) = [] := by
      have : ((catKeys db y gran pn).map
          (fun c => (c, catAmount db y gran pn c))).length = 0 := by
        rw [← hlen, h0]
        rfl
      rw [List.length_map] at this
      exact List.length_eq_zero.mp this
    have h2 : r.category ∈ catKeys db y gran pn := by
      unfold catKeys
      rw [List.mem_dedup, List.mem_map]
      refine ⟨r, ?_, rfl⟩
      unfold catRecords
      rw [List.mem_filter, decide_eq_true_eq]
      exact ⟨hr, hy, hp⟩
    rw [h1] at h2
    cases h2

/-- C7: the category-breakdown rows are sorted descending by amount;
when the period total is positive the raw percentages sum to exactly 100
and the emitted (rounded) ones to 100 within half a cent per row; when
the total is zero every percentage is 0. -/
theorem category_breakdown_pcts (db : List SalesRecord) (y : Int)
    (gran : String) (pn : Int) (hpn : pn ≠ 0) :
    ∃ o, category_breakdown db y gran (some pn) = .categoryOut o ∧
      List.Sorted (fun a b : ℚ => b ≤ a) (o.results.map CRow.amount) ∧
      (0 < ((categoryRows db y gran pn).map Prod.snd).sum →
        ((categoryRows db y gran pn).map (fun ca =>
          ca.2 / ((categoryRows db y gran pn).map Prod.snd).sum * 100)).sum
            = 100 ∧
        |(o.results.map CRow.percentage_of_total).sum - 100| ≤
          (o.results.length : ℚ) / 200) ∧
      (((categoryRows db y gran pn).map Prod.snd).sum = 0 →
        ∀ r ∈ o.results, r.percentage_of_total = 0) := by
  refine ⟨categorySuccess db y gran pn, category_breakdown_some hpn,
    ?_, ?_, ?_⟩
  · rw [categorySuccess_results, List.map_map]
    have hs := categoryRows_sorted db y gran pn
    have h1 := List.Pairwise.map
      (S := fun a b : ℚ => b ≤ a)
      (CRow.amount ∘ fun ca : String × ℚ =>
        ({ category := ca.1
           amount := round2 ca.2
           percentage_of_total :=
             round2 (if ((categoryRows db y gran pn).map Prod.snd).sum = 0
               then 0
               else ca.2 / ((categoryRows db y gran pn).map Prod.snd).sum *
                 100) } : CRow))
      (fun a b hab => round2_mono hab) hs
    exact h1
  · intro hT
    have hT0 : ((categoryRows db y gran pn).map Prod.snd).sum ≠ 0 :=
      ne_of_gt hT
    constructor
    · have h1 : ((categoryRows db y gran pn).map (fun ca =>
          ca.2 / ((categoryRows db y gran pn).map Prod.snd).sum * 100)).sum =
          ((categoryRows db y gran pn).map (fun ca =>
            ca.2 / ((categoryRows db y gran pn).map Prod.snd).sum)).sum *
            100 :=
        sum_map_mul_right _ _ _
      have h2 : (fun ca : String × ℚ =>
          ca.2 / ((categoryRows db y gran pn).map Prod.snd).sum) =
          (fun ca : String × ℚ =>
            Prod.snd ca * (((categoryRows db y gran pn).map
              Prod.snd).sum)⁻¹) :=
        funext fun ca => div_eq_mul_inv _ _
      rw [h1, h2, sum_map_mul_right,
        mul_inv_cancel₀ hT0, one_mul]
    · have hmap : (categorySuccess db y gran pn).results.map
          CRow.percentage_of_total =
          ((categoryRows db y gran pn).map (fun ca =>
            ca.2 / ((categoryRows db y gran pn).map Prod.snd).sum *
              100)).map round2 := by
        rw [categorySuccess_results, List.map_map, List.map_map]
        apply List.map_congr_left
        intro ca _
        show round2 _ = round2 _
        rw [if_neg hT0]
      have hlen : (categorySuccess db y gran pn).results.length =
          ((categoryRows db y gran pn).map (fun ca =>
            ca.2 / ((categoryRows db y gran pn).map Prod.snd).sum *
              100)).length := by
        rw [categorySuccess_results, List.length_map, List.length_map]
      rw [hmap, hlen]
      have hclose := sum_map_round2_close
        ((categoryRows db y gran pn).map (fun ca =>
          ca.2 / ((categoryRows db y gran pn).map Prod.snd).sum * 100))
      have h100 : ((categoryRows db y gran pn).map (fun ca =>
          ca.2 / ((categoryRows db y gran pn).map Prod.snd).sum *
            100)).sum = 100 := by
        have h1 : ((categoryRows db y gran pn).map (fun ca =>
            ca.2 / ((categoryRows db y gran pn).map Prod.snd).sum *
              100)).sum =
            ((categoryRows db y gran pn).map (fun ca =>
              ca.2 / ((categoryRows db y gran pn).map Prod.snd).sum)).sum *
              100 :=
          sum_map_mul_right _ _ _
        have h2 : (fun ca : String × ℚ =>
            ca.2 / ((categoryRows db y gran pn).map Prod.snd).sum) =
            (fun ca : String × ℚ =>
              Prod.snd ca * (((categoryRows db y gran pn).map
                Prod.snd).sum)⁻¹) :=
          funext fun ca => div_eq_mul_inv _ _
        rw [h1, h2, sum_map_mul_right, mul_inv_cancel₀ hT0, one_mul]
      rw [h100] at hclose
      exact hclose
  · intro hT r hr
    rw [categorySuccess_results] at hr
    obtain ⟨ca, _, rfl⟩ := List.mem_map.mp hr
    show round2 _ = 0
    rw [if_pos hT, round2_zero]

/-- C7 witness: quarterly breakdown of `db0` for Q1. -/
theorem category_breakdown_pcts_witness :
    ((1 : Int) ≠ 0) ∧
      ∃ o, category_breakdown db0 2025 "quarterly" (some 1) =
        .categoryOut o :=
  ⟨by decide,
    match category_breakdown_pcts db0 2025 "quarterly" 1 (by decide) with
    | ⟨o, h, _⟩ => ⟨o, h⟩⟩

/-- C8: the result reports the year as data-available exactly when the
year occurs in the store and at least one record matches the selected
year and period; otherwise (including an empty period inside a known
year) the year is reported missing. -/
theorem category_breakdown_availability (db : List SalesRecord) (y : Int)
    (gran : String) (pn : Int) (hpn : pn ≠ 0) :
    ∃ o, category_breakdown db y gran (some pn) = .categoryOut o ∧
      (o.data_available_for = [y] ↔
        ((∃ r ∈ db, r.year = y) ∧
          (∃ r ∈ db, r.year = y ∧ recordPeriod gran r = pn))) ∧
      (o.data_available_for = [y] ∨ o.data_available_for = []) ∧
      (¬ ((∃ r ∈ db, r.year = y) ∧
          (∃ r ∈ db, r.year = y ∧ recordPeriod gran r = pn)) →
        o.data_missing_for = [y] ∧ o.data_available_for = []) := by
  refine ⟨categorySuccess db y gran pn, category_breakdown_some hpn,
    ?_, ?_, ?_⟩
  · rw [categorySuccess_avail]
    by_cases hd : y ∈ yearsWithData db ∧ categoryRows db y gran pn ≠ []
    · rw [if_pos hd]
      simp only [true_iff]
      rw [← mem_yearsWithData, ← categoryRows_ne_nil]
      exact hd
    · rw [if_neg hd]
      constructor
      · intro h
        exact absurd h (by simp)
      · intro h
        exact absurd (⟨mem_yearsWithData.mpr h.1,
          categoryRows_ne_nil.mpr h.2⟩ :
            y ∈ yearsWithData db ∧ categoryRows db y gran pn ≠ []) hd
  · rw [categorySuccess_avail]
    by_cases hd : y ∈ yearsWithData db ∧ categoryRows db y gran pn ≠ []
    · rw [if_pos hd]
      exact Or.inl rfl
    · rw [if_neg hd]
      exact Or.inr rfl
  · intro hnot
    have hd : ¬ (y ∈ yearsWithData db ∧ categoryRows db y gran pn ≠ []) := by
      intro hd
      exact hnot ⟨mem_yearsWithData.mp hd.1, categoryRows_ne_nil.mp hd.2⟩
    rw [categorySuccess_missing, categorySuccess_avail, if_neg hd,
      if_neg hd]
    exact ⟨rfl, rfl⟩

/-- C8 witness: `db0` has 2025 data but no records in month 5, so the
year is reported missing for that period. -/
theorem category_breakdown_availability_witness :
    ((5 : Int) ≠ 0) ∧
      ∃ o, category_breakdown db0 2025 "monthly" (some 5) =
        .categoryOut o ∧ o.data_missing_for = [2025] :=
  ⟨by decide,
    match category_breakdown_availability db0 2025 "monthly" 5 (by decide)
      with
    | ⟨o, h1, _, _, h4⟩ =>
        ⟨o, h1, (h4 (by decide)).1⟩⟩

/-! ### Dispatch lemmas for `calculate_metrics` -/

theorem calculate_metrics_forecast (db : List SalesRecord) (y : Int)
    (gran : String) (pn : Option Int) (fv : Option FMap) (cy : Option Int)
    (hg : validPeriod gran = true) :
    calculate_metrics db "forecast_comparison" y gran pn fv cy =
      forecast_comparison db y gran pn fv := by
  unfold calculate_metrics
  rw [if_neg (by decide), if_neg (by simp [hg]), if_pos rfl]

theorem calculate_metrics_yoy (db : List SalesRecord) (y : Int)
    (gran : String) (pn : Option Int) (fv : Option FMap) (cy : Option Int)
    (hg : validPeriod gran = true) :
    calculate_metrics db "yoy_comparison" y gran pn fv cy =
      yoy_comparison db y gran pn cy := by
  unfold calculate_metrics
  rw [if_neg (by decide), if_neg (by simp [hg]), if_neg (by decide),
    if_pos rfl]

theorem calculate_metrics_growth (db : List SalesRecord) (y : Int)
    (gran : String) (pn : Option Int) (fv : Option FMap) (cy : Option Int)
    (hg : validPeriod gran = true) :
    calculate_metrics db "growth" y gran pn fv cy =
      growth db y gran pn := by
  unfold calculate_metrics
  rw [if_neg (by decide), if_neg (by simp [hg]), if_neg (by decide),
    if_neg (by decide), if_pos rfl]

theorem calculate_metrics_category (db : List SalesRecord) (y : Int)
    (gran : String) (pn : Option Int) (fv : Option FMap) (cy : Option Int)
    (hg : validPeriod gran = true) :
    calculate_metrics db "category_breakdown" y gran pn fv cy =
      category_breakdown db y gran pn := by
  unfold calculate_metrics
  rw [if_neg (by decide), if_neg (by simp [hg]), if_neg (by decide),
    if_neg (by decide), if_neg (by decide)]

/-- C9: a missing required parameter (forecast map, compare year, period
number) or a failed validation yields exactly the error envelope — the
fixed message, no per-period results — never an unhandled fault. -/
theorem calc_error_envelopes (db : List SalesRecord) (y : Int)
    (gran : String) (hg : validPeriod gran = true) :
    (∀ (pn cy : Option Int),
      calculate_metrics db "forecast_comparison" y gran pn none cy =
        .err "forecast_values is required for forecast_comparison" ∧
      (calculate_metrics db "forecast_comparison" y gran pn none
        cy).hasResults = false) ∧
    (∀ (pn : Option Int) (fv : Option FMap),
      calculate_metrics db "yoy_comparison" y gran pn fv none =
        .err "compare_year is required for yoy_comparison" ∧
      (calculate_metrics db "yoy_comparison" y gran pn fv
        none).hasResults = false) ∧
    (∀ (fv : Option FMap) (cy : Option Int),
      calculate_metrics db "category_breakdown" y gran none fv cy =
        .err "period_number is required for category_breakdown" ∧
      (calculate_metrics db "category_breakdown" y gran none fv
        cy).hasResults = false) ∧
    (∀ (mt : String) (pn : Option Int) (fv : Option FMap)
        (cy : Option Int), validMetricType mt = false →
      ∃ msg, calculate_metrics db mt y gran pn fv cy = .err msg) ∧
    (∀ (mt gran' : String) (pn : Option Int) (fv : Option FMap)
        (cy : Option Int), validPeriod gran' = false →
      ∃ msg, calculate_metrics db mt y gran' pn fv cy = .err msg) := by
  refine ⟨?_, ?_, ?_, ?_, ?_⟩
  · intro pn cy
    rw [calculate_metrics_forecast db y gran pn none cy hg]
    exact ⟨rfl, rfl⟩
  · intro pn fv
    rw [calculate_metrics_yoy db y gran pn fv none hg]
    exact ⟨rfl, rfl⟩
  · intro fv cy
    rw [calculate_metrics_category db y gran none fv cy hg]
    exact ⟨rfl, rfl⟩
  · intro mt pn fv cy hmt
    have h : calculate_metrics db mt y gran pn fv cy =
        .err "validation error: metric_type must be one of: forecast_comparison, yoy_comparison, growth, category_breakdown" := by
      unfold calculate_metrics
      rw [if_pos (by simp [hmt])]
    exact ⟨_, h⟩
  · intro mt gran' pn fv cy hgran
    by_cases hmt : validMetricType mt = true
    · have h : calculate_metrics db mt y gran' pn fv cy =
          .err "validation error: period must be monthly or quarterly" := by
        unfold calculate_metrics
        rw [if_neg (by simp [hmt]), if_pos (by simp [hgran])]
      exact ⟨_, h⟩
    · have h : calculate_metrics db mt y gran' pn fv cy =
          .err "validation error: metric_type must be one of: forecast_comparison, yoy_comparison, growth, category_breakdown" := by
        unfold calculate_metrics
        rw [if_pos (by simpa using hmt)]
      exact ⟨_, h⟩

/-- C9 witness. -/
theorem calc_error_envelopes_witness :
    validPeriod "monthly" = true ∧
      calculate_metrics [] "forecast_comparison" 2025 "monthly" none none
        none =
        .err "forecast_values is required for forecast_comparison" :=
  ⟨by decide,
    ((calc_error_envelopes [] 2025 "monthly" (by decide)).1 none none).1⟩

/-- C10: truthiness makes supplied-but-falsy required parameters behave
as absent: `compare_year = 0`, `period_number = 0` and an empty forecast
map each produce the error envelope, not a computed result. -/
theorem calc_falsy_required (db : List SalesRecord) (y : Int)
    (gran : String) (hg : validPeriod gran = true) :
    (∀ (pn : Option Int) (fv : Option FMap),
      calculate_metrics db "yoy_comparison" y gran pn fv (some 0) =
        .err "compare_year is required for yoy_comparison") ∧
    (∀ (fv : Option FMap) (cy : Option Int),
      calculate_metrics db "category_breakdown" y gran (some 0) fv cy =
        .err "period_number is required for category_breakdown") ∧
    (∀ (pn cy : Option Int) (v : Int → ℚ),
      calculate_metrics db "forecast_comparison" y gran pn
        (some ⟨[], v⟩) cy =
        .err "forecast_values is required for forecast_comparison") := by
  refine ⟨?_, ?_, ?_⟩
  · intro pn fv
    rw [calculate_metrics_yoy db y gran pn fv (some 0) hg]
    rfl
  · intro fv cy
    rw [calculate_metrics_category db y gran (some 0) fv cy hg]
    rfl
  · intro pn cy v
    rw [calculate_metrics_forecast db y gran pn (some ⟨[], v⟩) cy hg]
    rfl

/-- C10 witness. -/
theorem calc_falsy_required_witness :
    validPeriod "monthly" = true ∧
      calculate_metrics db0 "yoy_comparison" 2025 "monthly" none none
        (some 0) = .err "compare_year is required for yoy_comparison" :=
  ⟨by decide,
    (calc_falsy_required db0 2025 "monthly" (by decide)).1 none none⟩

end SalesMetrics
